import Mathlib

/-!
Verification of the project-tracker core (project store, listener fan-out,
input validation, form submission, list-view filtering) against its
natural-language specification.

The TypeScript source is embedded shallowly:

* `ProjectStatus` and `Project` come from the `Project` model class.
* The store (`ProjectState`) holds an explicit heap of `Project` records so
  that JavaScript reference aliasing is expressible: the store's `projects`
  array is a list of heap addresses, and `this.projects.slice()` copies the
  address list but shares the records — exactly what `Array.prototype.slice`
  does.  Listeners are opaque callbacks identified by registration index;
  a notification round is the list of `(listener index, delivered snapshot)`
  events produced by `updateListeners`.
* `Math.random().toString()` is nondeterministic, so the generated id is an
  explicit argument of `addProject`.
* JavaScript numbers are modelled as `Option Int` where `none` stands for
  `NaN` (the one place the program can produce `NaN` is `+enteredPeople`);
  every numeric value the program actually manipulates is integral.
-/

/-- `enum ProjectStatus { Active, Finished }` from the Project model class. -/
inductive ProjectStatus where
  | Active
  | Finished
deriving DecidableEq, Repr

/-- The `Project` data record: `id`, `title`, `description`, `people`,
`status`, all public fields set by the constructor. -/
structure Project where
  id : String
  title : String
  description : String
  people : Int
  status : ProjectStatus
deriving DecidableEq, Repr

/-- Default record used for total heap lookup (`List.getD`); reachable states
only ever dereference valid addresses. -/
def defaultProject : Project :=
  { id := "", title := "", description := "", people := 0,
    status := ProjectStatus.Active }

/-- The `ProjectState` store.  `heap` is the set of allocated `Project`
records (address = index), `projects` is the store's array of references to
them, and `numListeners` counts the registered listener callbacks (listeners
are opaque; registration order = index order). -/
structure ProjectState where
  heap : List Project
  projects : List Nat
  numListeners : Nat
deriving DecidableEq, Repr

/-- The freshly constructed store (`private constructor`): no projects, no
listeners. -/
def emptyState : ProjectState := { heap := [], projects := [], numListeners := 0 }

/-- Dereference a project reference, as every field read `proj.x` does. -/
def derefProject (heap : List Project) (a : Nat) : Project :=
  heap.getD a defaultProject

/-- The sequence of `Project` records the store currently holds, in array
order (each element of `this.projects` dereferenced). -/
def storeProjects (s : ProjectState) : List Project :=
  s.projects.map (derefProject s.heap)

/-- `addListener(listenerFn)`: pushes the callback onto `this.listeners`. -/
def addListener (s : ProjectState) : ProjectState :=
  { s with numListeners := s.numListeners + 1 }

/-- `updateListeners()`: iterates `this.listeners` in order and calls each
with `this.projects.slice()` — a copy of the reference array.  The result is
the list of delivery events `(listener index, delivered snapshot)`. -/
def updateListeners (s : ProjectState) : List (Nat × List Nat) :=
  (List.range s.numListeners).map (fun i => (i, s.projects))

/-- `addProject(title, description, numOfPeople)`: constructs a new `Project`
with the generated id (`Math.random().toString()`, here the explicit argument
`genId`) and `ProjectStatus.Active`, pushes it onto `this.projects`, then
runs `updateListeners`.  Returns the new state and the delivery events. -/
def addProject (title description : String) (numOfPeople : Int) (genId : String)
    (s : ProjectState) : ProjectState × List (Nat × List Nat) :=
  let newProject : Project :=
    { id := genId, title := title, description := description,
      people := numOfPeople, status := ProjectStatus.Active }
  let s' : ProjectState :=
    { s with heap := s.heap ++ [newProject],
             projects := s.projects ++ [s.heap.length] }
  (s', updateListeners s')

/-- `moveProject(projectId, newStatus)`: `this.projects.find(proj => proj.id
=== projectId)`; if found and `project.status !== newStatus`, mutates
`project.status` in place (a heap update at the found reference) and runs
`updateListeners`; otherwise does nothing and notifies no one. -/
def moveProject (projectId : String) (newStatus : ProjectStatus)
    (s : ProjectState) : ProjectState × List (Nat × List Nat) :=
  match s.projects.find? (fun a => (derefProject s.heap a).id == projectId) with
  | some a =>
      let p := derefProject s.heap a
      if p.status ≠ newStatus then
        let s' : ProjectState :=
          { s with heap := s.heap.set a { p with status := newStatus } }
        (s', updateListeners s')
      else
        (s, [])
  | none => (s, [])

/-- A subscriber assigning `record.status = st` through a delivered reference
`a` (field mutation on a shared heap record). -/
def setStatusThrough (heap : List Project) (a : Nat) (st : ProjectStatus) :
    List Project :=
  heap.set a { heap.getD a defaultProject with status := st }

/-- Well-formedness: every reference in the store's array points into the
heap.  Holds in every reachable state. -/
def WF (s : ProjectState) : Prop :=
  ∀ a ∈ s.projects, a < s.heap.length

instance (s : ProjectState) : Decidable (WF s) := by
  unfold WF; infer_instance

/-- A JavaScript value of type `string | number`.  `num none` is `NaN`
(note `typeof NaN === "number"`). -/
inductive JSVal where
  | str (s : String)
  | num (n : Option Int)
deriving DecidableEq, Repr

/-- `value.toString()`.  For strings it is the identity; for numbers the
program only ever observes that the result is non-empty after trimming, and
integers / `NaN` print with no surrounding whitespace. -/
def jsToString : JSVal → String
  | JSVal.str s => s
  | JSVal.num none => "NaN"
  | JSVal.num (some i) => toString i

/-- `String.prototype.trim()`: strip leading and trailing whitespace
characters (defined over the character list so it computes by kernel
reduction; the inputs of interest are ASCII). -/
def jsTrim (s : String) : String :=
  String.mk (((s.data.dropWhile Char.isWhitespace).reverse.dropWhile
      Char.isWhitespace).reverse)

/-- `v >= bound` on JavaScript numbers: any comparison with `NaN` is false. -/
def jsGe (v : Option Int) (bound : Int) : Bool :=
  match v with
  | none => false
  | some x => decide (bound ≤ x)

/-- `v <= bound` on JavaScript numbers: any comparison with `NaN` is false. -/
def jsLe (v : Option Int) (bound : Int) : Bool :=
  match v with
  | none => false
  | some x => decide (x ≤ bound)

/-- The `Validatable` interface: `value` plus five optional constraint
fields (`none` = the property is absent / `undefined`). -/
structure Validatable where
  value : JSVal
  required : Option Bool
  minLength : Option Int
  maxLength : Option Int
  min : Option Int
  max : Option Int
deriving DecidableEq, Repr

/-- `validate(obj)`: starts from `true` and conjoins, in order, the
`required` check (truthy `required` only), the `minLength`/`maxLength`
checks (only when `value` is a string), and the `min`/`max` checks (only
when `value` is a number). -/
def validate (obj : Validatable) : Bool :=
  let isValid := true
  let isValid :=
    if obj.required = some true then
      isValid && (jsTrim (jsToString obj.value)).length != 0
    else isValid
  let isValid :=
    match obj.minLength, obj.value with
    | some ml, JSVal.str s => isValid && decide (ml ≤ (s.length : Int))
    | _, _ => isValid
  let isValid :=
    match obj.maxLength, obj.value with
    | some ml, JSVal.str s => isValid && decide ((s.length : Int) ≤ ml)
    | _, _ => isValid
  let isValid :=
    match obj.min, obj.value with
    | some mn, JSVal.num v => isValid && jsGe v mn
    | _, _ => isValid
  let isValid :=
    match obj.max, obj.value with
    | some mx, JSVal.num v => isValid && jsLe v mx
    | _, _ => isValid
  isValid

/-- `titleValidatable` built in `getUserInput`: `{ value, required: true }`. -/
def titleValidatable (enteredTitle : String) : Validatable :=
  { value := JSVal.str enteredTitle, required := some true,
    minLength := none, maxLength := none, min := none, max := none }

/-- `descriptionValidatable` built in `getUserInput`:
`{ value, required: true, minLength: 2, maxLength: 280 }`. -/
def descriptionValidatable (enteredDescription : String) : Validatable :=
  { value := JSVal.str enteredDescription, required := some true,
    minLength := some 2, maxLength := some 280, min := none, max := none }

/-- `peopleValidatable` built in `getUserInput`:
`{ value: +enteredPeople, required: true, min: 1, max: 5 }` (the argument is
the already-coerced number). -/
def peopleValidatable (peopleValue : Option Int) : Validatable :=
  { value := JSVal.num peopleValue, required := some true,
    minLength := none, maxLength := none, min := some 1, max := some 5 }

/-- The combined acceptance check of `getUserInput`: all three `validate`
calls succeed. -/
def checkUserInput (enteredTitle enteredDescription : String)
    (peopleValue : Option Int) : Bool :=
  validate (titleValidatable enteredTitle) &&
  validate (descriptionValidatable enteredDescription) &&
  validate (peopleValidatable peopleValue)

/-- The three raw form fields of `ProjectInput`. -/
structure FormState where
  titleInput : String
  descriptionInput : String
  peopleInput : String
deriving DecidableEq, Repr

/-- `clearInputs()`: sets all three field values to `""`. -/
def clearInputs (_f : FormState) : FormState :=
  { titleInput := "", descriptionInput := "", peopleInput := "" }

/-- `getUserInput()`: reads the three raw values, validates them, and
returns the tuple `(title, description, +enteredPeople)` when all checks
pass, or nothing (`void`) when any fails.  `toNum` models the unary-plus
string→number coercion of `+enteredPeople` (`none` = `NaN`); when the guard
passes the `min` check forces `toNum f.peopleInput = some q`, so the
`getD 0` never fires. -/
def getUserInput (toNum : String → Option Int) (f : FormState) :
    Option (String × String × Int) :=
  if checkUserInput f.titleInput f.descriptionInput (toNum f.peopleInput) then
    some (f.titleInput, f.descriptionInput, (toNum f.peopleInput).getD 0)
  else
    none

/-- `handleSubmit(e)`: runs `getUserInput`; if it returned the tuple, calls
`projectState.addProject(title, description, people)` and then
`clearInputs()`; otherwise leaves the form and the store untouched.  Returns
the new form state, the new store state and the delivery events. -/
def handleSubmit (toNum : String → Option Int) (genId : String)
    (f : FormState) (s : ProjectState) :
    FormState × ProjectState × List (Nat × List Nat) :=
  match getUserInput toNum f with
  | some (title, description, people) =>
      let r := addProject title description people genId s
      (clearInputs f, r.1, r.2)
  | none => (f, s, [])

/-- The literal union type `"active" | "finished"` of `ProjectList`'s
constructor parameter. -/
inductive ListViewType where
  | active
  | finished
deriving DecidableEq, Repr

/-- The filter predicate of the listener registered in
`ProjectList.configure`: `if (this.type === "active") return project.status
=== ProjectStatus.Active; return project.status === ProjectStatus.Finished`. -/
def matchesViewType (t : ListViewType) (st : ProjectStatus) : Bool :=
  match t with
  | ListViewType.active => st = ProjectStatus.Active
  | ListViewType.finished => st = ProjectStatus.Finished

/-- A `ProjectList` view: its fixed `type` and its `assignedProjects`
field.  The listener receives `Project` objects, i.e. references, so
`assignedProjects` is a list of heap addresses. -/
structure ProjectListView where
  type : ListViewType
  assignedProjects : List Nat
deriving DecidableEq, Repr

/-- The body of the listener `ProjectList.configure` registers: filter the
delivered snapshot by this view's `type` (reading `project.status` through
each reference) and replace `assignedProjects` with the result. -/
def onNotify (heap : List Project) (v : ProjectListView)
    (snapshot : List Nat) : ProjectListView :=
  { v with assignedProjects :=
      snapshot.filter (fun a => matchesViewType v.type (derefProject heap a).status) }

/-- `renderProjects()`: one `ProjectItem` per element of
`assignedProjects`, in order; each item holds the project reference, so the
rendered content is the dereferenced record list. -/
def renderedProjects (heap : List Project) (v : ProjectListView) : List Project :=
  v.assignedProjects.map (derefProject heap)

/-- One store operation, as invoked by the UI layer.  `add` carries the id
the generator produced for that call. -/
inductive Op where
  | add (title description : String) (numOfPeople : Int) (genId : String)
  | move (projectId : String) (newStatus : ProjectStatus)
  | listen
deriving DecidableEq, Repr

/-- Apply one operation, returning the new state and the delivery events it
produced. -/
def applyOp (s : ProjectState) : Op → ProjectState × List (Nat × List Nat)
  | Op.add t d n g => addProject t d n g s
  | Op.move pid st => moveProject pid st s
  | Op.listen => (addListener s, [])

/-- Run a sequence of operations (states only). -/
def runOps (s : ProjectState) : List Op → ProjectState
  | [] => s
  | op :: ops => runOps (applyOp s op).1 ops

/-- Run a sequence of operations, concatenating the delivery events each
operation produced (notification rounds are never merged: the events of a
run are exactly the rounds of its operations, in order). -/
def runOpsEvents (s : ProjectState) : List Op → List (Nat × List Nat)
  | [] => []
  | op :: ops => (applyOp s op).2 ++ runOpsEvents (applyOp s op).1 ops

/-- The ids handed to `addProject` over a run, in order. -/
def addIds : List Op → List String
  | [] => []
  | Op.add _ _ _ g :: ops => g :: addIds ops
  | _ :: ops => addIds ops

/-- The ids of the projects a store currently holds, in order. -/
def storeIds (s : ProjectState) : List String :=
  (storeProjects s).map Project.id

/-- The `for (const listenerFn of this.listeners) listenerFn(...)` loop when
listener behaviour is taken into account: `thr i = true` means listener `i`
throws when invoked.  The loop body has no `try`/`catch`, so a throw
propagates out of the loop: the throwing listener is invoked (and throws),
the remaining ones are never invoked.  Returns the delivery events and
whether an exception escaped. -/
def deliverWithThrows (thr : Nat → Bool) (snapshot : List Nat) :
    List Nat → List (Nat × List Nat) × Bool
  | [] => ([], false)
  | i :: rest =>
      if thr i then
        ([(i, snapshot)], true)
      else
        let r := deliverWithThrows thr snapshot rest
        ((i, snapshot) :: r.1, r.2)

/-- `updateListeners()` under the throw-aware semantics. -/
def updateListenersEx (thr : Nat → Bool) (s : ProjectState) :
    List (Nat × List Nat) × Bool :=
  deliverWithThrows thr s.projects (List.range s.numListeners)

/-- Repeat the same `moveProject` call `n` times, accumulating the delivery
events of all the calls. -/
def moveProjectIter (projectId : String) (newStatus : ProjectStatus) :
    Nat → ProjectState → ProjectState × List (Nat × List Nat)
  | 0, s => (s, [])
  | n + 1, s =>
      let r := moveProject projectId newStatus s
      let r' := moveProjectIter projectId newStatus n r.1
      (r'.1, r.2 ++ r'.2)

/-- A concrete store used by witnesses: one listener, project "idA" Active,
project "idB" moved to Finished. -/
def sampleStore : ProjectState :=
  (moveProject "idB" ProjectStatus.Finished
    (addProject "B" "b2" 2 "idB"
      (addProject "A" "a1" 1 "idA" (addListener emptyState)).1).1).1

example : (addProject "t" "d" 1 "0.5" emptyState).1.projects = [0] := by decide

example :
    sampleStore.heap =
      [{ id := "idA", title := "A", description := "a1", people := 1,
         status := ProjectStatus.Active },
       { id := "idB", title := "B", description := "b2", people := 2,
         status := ProjectStatus.Finished }] := by decide

theorem WF_emptyState : WF emptyState := by
  intro a ha
  simp [emptyState] at ha

theorem WF_addListener (s : ProjectState) (h : WF s) : WF (addListener s) := h

theorem WF_addProject (s : ProjectState) (h : WF s)
    (t d : String) (n : Int) (g : String) :
    WF (addProject t d n g s).1 := by
  intro a ha
  simp only [addProject, List.mem_append, List.mem_singleton] at ha
  simp only [addProject, List.length_append, List.length_singleton]
  rcases ha with ha | ha
  · exact Nat.lt_succ_of_lt (h a ha)
  · subst ha; exact Nat.lt_succ_self _

theorem WF_moveProject (s : ProjectState) (h : WF s)
    (pid : String) (st : ProjectStatus) :
    WF (moveProject pid st s).1 := by
  unfold moveProject
  cases hf : s.projects.find? (fun a => (derefProject s.heap a).id == pid) with
  | none => exact h
  | some a =>
      dsimp only
      by_cases hst : (derefProject s.heap a).status ≠ st
      · rw [if_pos hst]
        intro b hb
        simpa using h b hb
      · rw [if_neg hst]
        exact h

theorem storeProjects_addProject (s : ProjectState) (hWF : WF s)
    (t d : String) (n : Int) (g : String) :
    storeProjects (addProject t d n g s).1 =
      storeProjects s ++
        [{ id := g, title := t, description := d, people := n,
           status := ProjectStatus.Active }] := by
  unfold storeProjects addProject
  simp only [List.map_append, List.map_cons, List.map_nil]
  have h1 : ∀ a ∈ s.projects,
      derefProject (s.heap ++
        [{ id := g, title := t, description := d, people := n,
           status := ProjectStatus.Active }]) a = derefProject s.heap a := by
    intro a ha
    unfold derefProject
    exact List.getD_append _ _ _ _ (hWF a ha)
  have h2 : derefProject (s.heap ++
      [{ id := g, title := t, description := d, people := n,
         status := ProjectStatus.Active }]) s.heap.length =
      { id := g, title := t, description := d, people := n,
        status := ProjectStatus.Active } := by
    unfold derefProject
    rw [List.getD_append_right _ _ _ _ (Nat.le_refl _)]
    simp
  rw [List.map_congr_left h1, h2]

/-- C1: `addProject(title, description, peopleCount)` appends exactly one
new `Project` at the end of the stored sequence, carrying the freshly
generated id (the generator's output for this call) and status `Active`,
leaves every previously stored project unchanged, keeps the listener list
unchanged, and then notifies every registered subscriber, in order, with a
full snapshot of the store's sequence.  The operation is total (never
fails). -/
theorem addProject_adds_one_active (s : ProjectState) (hWF : WF s)
    (title description : String) (numOfPeople : Int) (genId : String) :
    storeProjects (addProject title description numOfPeople genId s).1 =
      storeProjects s ++
        [{ id := genId, title := title, description := description,
           people := numOfPeople, status := ProjectStatus.Active }] ∧
    (storeProjects (addProject title description numOfPeople genId s).1).length =
      (storeProjects s).length + 1 ∧
    (addProject title description numOfPeople genId s).1.numListeners =
      s.numListeners ∧
    (addProject title description numOfPeople genId s).2 =
      (List.range s.numListeners).map
        (fun i => (i, (addProject title description numOfPeople genId s).1.projects)) := by
  refine ⟨storeProjects_addProject s hWF title description numOfPeople genId, ?_, rfl, rfl⟩
  rw [storeProjects_addProject s hWF title description numOfPeople genId]
  simp

/-- C2: `moveProject(id, newStatus)` is a complete no-op — state unchanged,
nobody notified — when the lookup finds no project with the given id, or
when the found project already has the requested status; and repeating such
a call any number of times still changes nothing and notifies no one. -/
theorem moveProject_noop (s : ProjectState) (pid : String) (st : ProjectStatus)
    (h : s.projects.find? (fun a => (derefProject s.heap a).id == pid) = none ∨
      ∃ a, s.projects.find? (fun a => (derefProject s.heap a).id == pid) = some a ∧
        (derefProject s.heap a).status = st) :
    moveProject pid st s = (s, []) ∧
    ∀ n, moveProjectIter pid st n s = (s, []) := by
  have hone : moveProject pid st s = (s, []) := by
    unfold moveProject
    rcases h with hnone | ⟨a, hfind, hst⟩
    · rw [hnone]
    · rw [hfind]
      dsimp only
      rw [if_neg (fun hne => hne hst)]
  refine ⟨hone, ?_⟩
  intro n
  induction n with
  | zero => rfl
  | succ k ih => simp [moveProjectIter, hone, ih]

/-- Witness for C2: a store holding one Active project; moving it to
`Active` three times changes nothing and notifies no one. -/
theorem moveProject_noop_witness :
    moveProjectIter "0.9" ProjectStatus.Active 3
        (addProject "t" "d" 1 "0.9" (addListener emptyState)).1 =
      ((addProject "t" "d" 1 "0.9" (addListener emptyState)).1, []) :=
  (moveProject_noop _ "0.9" ProjectStatus.Active
    (Or.inr ⟨0, by decide, by decide⟩)).2 3

/-- C6: every change to the project set (every `addProject`, and every
`moveProject` that actually changes a status) synchronously produces one
delivery event per registered listener, indexed `0, 1, …, n-1` in
registration order — each subscriber exactly once — and every delivery
carries the store's full current reference array (`this.projects.slice()`),
never a delta; successive changes each produce their own complete round
(the events of a run are the concatenation of the rounds, nothing
coalesced). -/
theorem every_change_notifies_in_order (s : ProjectState)
    (t d : String) (n : Int) (g : String)
    (t' d' : String) (n' : Int) (g' : String)
    (pid : String) (st : ProjectStatus) :
    (addProject t d n g s).2 =
      (List.range s.numListeners).map
        (fun i => (i, s.projects ++ [s.heap.length])) ∧
    (addProject t d n g s).2.map Prod.fst = List.range s.numListeners ∧
    (∀ a, s.projects.find? (fun b => (derefProject s.heap b).id == pid) = some a →
      (derefProject s.heap a).status ≠ st →
      (moveProject pid st s).2 =
        (List.range s.numListeners).map (fun i => (i, s.projects))) ∧
    runOpsEvents s [Op.add t d n g, Op.add t' d' n' g'] =
      (List.range s.numListeners).map
        (fun i => (i, s.projects ++ [s.heap.length])) ++
      (List.range s.numListeners).map
        (fun i => (i, s.projects ++ [s.heap.length] ++ [s.heap.length + 1])) := by
  refine ⟨rfl, by simp [addProject, updateListeners, List.map_map, Function.comp_def], ?_, ?_⟩
  · intro a hfind hst
    unfold moveProject
    rw [hfind]
    dsimp only
    rw [if_pos hst]
    rfl
  · simp [runOpsEvents, applyOp, addProject, updateListeners, List.length_append]

/-- Witness for C6: the status-changing `moveProject` clause at a concrete
one-listener, one-project store. -/
theorem every_change_notifies_in_order_witness :
    (moveProject "0.9" ProjectStatus.Finished
        (addProject "t" "d" 1 "0.9" (addListener emptyState)).1).2 =
      (List.range 1).map
        (fun i => (i, (addProject "t" "d" 1 "0.9" (addListener emptyState)).1.projects)) :=
  ((every_change_notifies_in_order
      (addProject "t" "d" 1 "0.9" (addListener emptyState)).1
      "x" "y" 1 "0.2" "x" "y" 1 "0.3" "0.9" ProjectStatus.Finished).2.2.1
    0 (by decide) (by decide))

/-- C4: after every notification, a `ProjectList` view of fixed type `t`
holds and renders exactly the subsequence of the store's projects whose
status matches `t`, in snapshot (insertion) order, and its previous local
list is replaced entirely (the result does not depend on it). -/
theorem projectList_filtering_invariant (s : ProjectState) (v : ProjectListView) :
    (∀ ev ∈ updateListeners s,
      renderedProjects s.heap (onNotify s.heap v ev.2) =
        (storeProjects s).filter (fun p => matchesViewType v.type p.status)) ∧
    (onNotify s.heap v s.projects).type = v.type ∧
    (∀ old : List Nat,
      onNotify s.heap { v with assignedProjects := old } s.projects =
        onNotify s.heap v s.projects) := by
  have hsnap : ∀ ev ∈ updateListeners s, ev.2 = s.projects := by
    intro ev hev
    unfold updateListeners at hev
    obtain ⟨i, _, rfl⟩ := List.mem_map.mp hev
    rfl
  refine ⟨?_, rfl, fun old => rfl⟩
  intro ev hev
  rw [hsnap ev hev]
  unfold renderedProjects onNotify storeProjects
  dsimp only
  rw [List.filter_map]
  rfl

/-- Witness for C4: at the sample store, the Active view renders exactly the
Active project. -/
theorem projectList_filtering_invariant_witness :
    renderedProjects sampleStore.heap
        (onNotify sampleStore.heap
          { type := ListViewType.active, assignedProjects := [] }
          sampleStore.projects) =
      (storeProjects sampleStore).filter
        (fun p => matchesViewType ListViewType.active p.status) :=
  (projectList_filtering_invariant sampleStore
      { type := ListViewType.active, assignedProjects := [] }).1
    (0, sampleStore.projects) (by decide)

theorem deliverWithThrows_append_of_no_throw (thr : Nat → Bool)
    (snap : List Nat) (l₁ l₂ : List Nat) (h : ∀ i ∈ l₁, thr i = false) :
    deliverWithThrows thr snap (l₁ ++ l₂) =
      (l₁.map (fun i => (i, snap)) ++ (deliverWithThrows thr snap l₂).1,
       (deliverWithThrows thr snap l₂).2) := by
  induction l₁ with
  | nil => simp
  | cons i l₁ ih =>
      have hi : thr i = false := h i (List.mem_cons_self i l₁)
      have hrest : ∀ j ∈ l₁, thr j = false :=
        fun j hj => h j (List.mem_cons_of_mem i hj)
      simp only [List.cons_append, deliverWithThrows, hi, Bool.false_eq_true,
        if_false, List.append_eq, ih hrest, List.map_cons]

theorem range_split_at (k n : Nat) (h : k < n) :
    ∃ l, List.range n = List.range k ++ k :: l := by
  refine ⟨(List.range (n - (k + 1))).map ((k + 1) + ·), ?_⟩
  rw [show n = (k + 1) + (n - (k + 1)) by omega, List.range_add, List.range_succ]
  simp

/-- C5 counterexample: a concrete fan-out (two registered listeners, one
stored project) in which listener 0 throws.  The `for` loop in
`updateListeners` has no per-callback isolation, so listener 1 — registered
and not itself throwing — receives no delivery, refuting "every other
registered subscriber is still invoked". -/
theorem listener_throw_stops_delivery_cex :
    (addProject "t" "d" 1 "0.5" (addListener (addListener emptyState))).1.numListeners = 2 ∧
    (fun i => i == 0) 1 = false ∧
    (updateListenersEx (fun i => i == 0)
        (addProject "t" "d" 1 "0.5" (addListener (addListener emptyState))).1).1 =
      [(0, [0])] ∧
    (1, [0]) ∉
      (updateListenersEx (fun i => i == 0)
          (addProject "t" "d" 1 "0.5" (addListener (addListener emptyState))).1).1 := by
  decide

/-- C5 amended: when listener `k` is the first to throw, delivery stops at
`k`: listeners `0 … k-1` were already invoked, `k` is invoked (and its
exception escapes the loop), and listeners after `k` are never invoked for
that change. -/
theorem delivery_stops_at_first_throw (s : ProjectState) (thr : Nat → Bool)
    (k : Nat) (hk : k < s.numListeners)
    (hbefore : ∀ i, i < k → thr i = false) (hthrow : thr k = true) :
    (updateListenersEx thr s).1 =
      (List.range (k + 1)).map (fun i => (i, s.projects)) ∧
    (updateListenersEx thr s).2 = true := by
  obtain ⟨l₂, hsplit⟩ := range_split_at k s.numListeners hk
  have h1 : ∀ i ∈ List.range k, thr i = false :=
    fun i hi => hbefore i (List.mem_range.mp hi)
  have h2 : deliverWithThrows thr s.projects (k :: l₂) = ([(k, s.projects)], true) := by
    simp [deliverWithThrows, hthrow]
  have h3 := deliverWithThrows_append_of_no_throw thr s.projects
    (List.range k) (k :: l₂) h1
  unfold updateListenersEx
  rw [hsplit, h3, h2]
  constructor
  · dsimp only
    rw [List.range_succ, List.map_append]
    rfl
  · rfl

/-- Witness for the amended C5 at a concrete three-listener store where
listener 1 throws: listeners 0 and 1 are invoked, listener 2 is not. -/
theorem delivery_stops_at_first_throw_witness :
    (updateListenersEx (fun i => i == 1)
        (addListener (addListener (addListener emptyState)))).1 =
      (List.range 2).map
        (fun i => (i, (addListener (addListener (addListener emptyState))).projects)) :=
  (delivery_stops_at_first_throw
      (addListener (addListener (addListener emptyState)))
      (fun i => i == 1) 1 (by decide) (by decide) (by decide)).1

/-- C3 counterexample: a concrete one-listener, one-project store.  The
snapshot `this.projects.slice()` copies only the array: the delivered
reference `0` is the store's own record (`0 ∈ s.projects`), the filtered
view ends up holding that same reference, and a subscriber assigning
`status` through the delivered record changes the store's own project —
refuting "no mutation … through the delivered snapshot … can change
store-internal state" and "views never hold direct references". -/
theorem snapshot_shallow_copy_cex :
    updateListeners (addProject "t" "d" 1 "0.5" (addListener emptyState)).1 =
      [(0, [0])] ∧
    (0 : Nat) ∈ (addProject "t" "d" 1 "0.5" (addListener emptyState)).1.projects ∧
    (onNotify (addProject "t" "d" 1 "0.5" (addListener emptyState)).1.heap
        { type := ListViewType.active, assignedProjects := [] }
        [0]).assignedProjects = [0] ∧
    storeProjects
        { (addProject "t" "d" 1 "0.5" (addListener emptyState)).1 with
          heap := setStatusThrough
            (addProject "t" "d" 1 "0.5" (addListener emptyState)).1.heap 0
            ProjectStatus.Finished } ≠
      storeProjects (addProject "t" "d" 1 "0.5" (addListener emptyState)).1 := by
  decide

/-- C3 amended: each delivered snapshot is a copy of the store's array of
references only — it lists exactly the store's current references, in order,
so through it a subscriber cannot change which projects the store holds —
but the `Project` records are shared: mutating a field through any delivered
reference changes the store's own sequence of records. -/
theorem snapshot_array_copy_shares_records (s : ProjectState) (hWF : WF s)
    (a : Nat) (ha : a ∈ s.projects) (st : ProjectStatus)
    (hst : st ≠ (derefProject s.heap a).status) :
    (∀ ev ∈ updateListeners s, ev.2 = s.projects) ∧
    storeProjects { s with heap := setStatusThrough s.heap a st } ≠
      storeProjects s := by
  constructor
  · intro ev hev
    unfold updateListeners at hev
    obtain ⟨i, _, rfl⟩ := List.mem_map.mp hev
    rfl
  · intro heq
    unfold storeProjects at heq
    have hpt : derefProject (setStatusThrough s.heap a st) a =
        derefProject s.heap a :=
      List.map_inj_left.mp heq a ha
    have hlen : a < s.heap.length := hWF a ha
    have hset : derefProject (setStatusThrough s.heap a st) a =
        { derefProject s.heap a with status := st } := by
      unfold derefProject setStatusThrough
      rw [List.getD_eq_getElem _ _ (by simpa using hlen)]
      rw [List.getElem_set_self]
    rw [hset] at hpt
    have : st = (derefProject s.heap a).status := congrArg Project.status hpt
    exact hst this

/-- Witness for the amended C3 at the sample store: mutating the Active
project's status through its delivered reference changes the store's
records. -/
theorem snapshot_array_copy_shares_records_witness :
    storeProjects
        { sampleStore with
          heap := setStatusThrough sampleStore.heap 0 ProjectStatus.Finished } ≠
      storeProjects sampleStore :=
  (snapshot_array_copy_shares_records sampleStore (by decide) 0 (by decide)
      ProjectStatus.Finished (by decide)).2

theorem storeIds_addProject (s : ProjectState) (hWF : WF s)
    (t d : String) (n : Int) (g : String) :
    storeIds (addProject t d n g s).1 = storeIds s ++ [g] := by
  unfold storeIds
  rw [storeProjects_addProject s hWF]
  simp

theorem storeIds_moveProject (s : ProjectState) (hWF : WF s)
    (pid : String) (st : ProjectStatus) :
    storeIds (moveProject pid st s).1 = storeIds s := by
  unfold moveProject
  cases hf : s.projects.find? (fun a => (derefProject s.heap a).id == pid) with
  | none => rfl
  | some a =>
      dsimp only
      by_cases hst : (derefProject s.heap a).status ≠ st
      · rw [if_pos hst]
        have ha : a ∈ s.projects := List.mem_of_find?_eq_some hf
        have hlen : a < s.heap.length := hWF a ha
        unfold storeIds storeProjects
        simp only [List.map_map]
        apply List.map_congr_left
        intro b _
        simp only [Function.comp]
        by_cases hab : b = a
        · subst hab
          unfold derefProject
          rw [List.getD_eq_getElem _ _ (by simpa using hlen),
            List.getElem_set_self]
        · unfold derefProject
          rw [List.getD_eq_getElem?_getD,
            List.getElem?_set_ne (fun h => hab h.symm),
            ← List.getD_eq_getElem?_getD]
      · rw [if_neg hst]

theorem WF_runOps (s : ProjectState) (hWF : WF s) (ops : List Op) :
    WF (runOps s ops) := by
  induction ops generalizing s with
  | nil => exact hWF
  | cons op ops ih =>
      cases op with
      | add t d n g => exact ih _ (WF_addProject s hWF t d n g)
      | move pid st => exact ih _ (WF_moveProject s hWF pid st)
      | listen => exact ih _ (WF_addListener s hWF)

theorem storeIds_runOps (s : ProjectState) (hWF : WF s) (ops : List Op) :
    storeIds (runOps s ops) = storeIds s ++ addIds ops := by
  induction ops generalizing s with
  | nil => simp [runOps, addIds]
  | cons op ops ih =>
      cases op with
      | add t d n g =>
          show storeIds (runOps (addProject t d n g s).1 ops) = _
          rw [ih _ (WF_addProject s hWF t d n g),
            storeIds_addProject s hWF t d n g]
          simp [addIds]
      | move pid st =>
          show storeIds (runOps (moveProject pid st s).1 ops) = _
          rw [ih _ (WF_moveProject s hWF pid st),
            storeIds_moveProject s hWF pid st]
          rfl
      | listen =>
          show storeIds (runOps (addListener s) ops) = _
          rw [ih _ (WF_addListener s hWF)]
          rfl

/-- C7 counterexample: ids come from `Math.random().toString()`, which the
code never checks for freshness; if the generator repeats a value (nothing
prevents it), two distinct stored projects carry the same id.  Concretely,
two `addProject` calls whose generated id is `"0.5"` leave the store with
two different projects with equal ids. -/
theorem duplicate_random_ids_cex :
    (storeProjects (runOps emptyState
        [Op.add "t" "d" 1 "0.5", Op.add "u" "e" 2 "0.5"])).length = 2 ∧
    (storeProjects (runOps emptyState
        [Op.add "t" "d" 1 "0.5", Op.add "u" "e" 2 "0.5"])).getD 0 defaultProject ≠
      (storeProjects (runOps emptyState
        [Op.add "t" "d" 1 "0.5", Op.add "u" "e" 2 "0.5"])).getD 1 defaultProject ∧
    storeIds (runOps emptyState
        [Op.add "t" "d" 1 "0.5", Op.add "u" "e" 2 "0.5"]) = ["0.5", "0.5"] ∧
    ¬ (storeIds (runOps emptyState
        [Op.add "t" "d" 1 "0.5", Op.add "u" "e" 2 "0.5"])).Pairwise (· ≠ ·) := by
  decide

/-- C7 amended: over any operation sequence from the fresh store, the ids of
the stored projects are exactly the generator outputs of the `addProject`
calls, in creation order — so no store operation ever changes an id after
creation — and, provided the generated ids are pairwise distinct, any two
distinct stored projects have distinct ids. -/
theorem ids_immutable_and_unique_if_generated_fresh (ops : List Op)
    (hdist : (addIds ops).Pairwise (· ≠ ·)) :
    storeIds (runOps emptyState ops) = addIds ops ∧
    (storeIds (runOps emptyState ops)).Pairwise (· ≠ ·) := by
  have h := storeIds_runOps emptyState WF_emptyState ops
  have h0 : storeIds emptyState = [] := rfl
  rw [h0, List.nil_append] at h
  exact ⟨h, h ▸ hdist⟩

/-- Witness for the amended C7: two adds with distinct generated ids and a
move; the stored ids are the generated ones and pairwise distinct. -/
theorem ids_immutable_and_unique_witness :
    storeIds (runOps emptyState
        [Op.add "t" "d" 1 "0.1", Op.add "u" "e" 2 "0.2",
         Op.move "0.1" ProjectStatus.Finished]) = ["0.1", "0.2"] :=
  (ids_immutable_and_unique_if_generated_fresh
      [Op.add "t" "d" 1 "0.1", Op.add "u" "e" 2 "0.2",
       Op.move "0.1" ProjectStatus.Finished] (by decide)).1

theorem validate_title_eval (t : String) :
    validate (titleValidatable t) = ((jsTrim t).length != 0) := rfl

theorem validate_desc_eval (d : String) :
    validate (descriptionValidatable d) =
      (((jsTrim d).length != 0) && decide ((2 : Int) ≤ (d.length : Int)) &&
        decide ((d.length : Int) ≤ 280)) := rfl

theorem validate_people_eval (p : Option Int) :
    validate (peopleValidatable p) =
      (((jsTrim (jsToString (JSVal.num p))).length != 0) &&
        jsGe p 1 && jsLe p 5) := rfl

theorem validate_title_iff (t : String) :
    validate (titleValidatable t) = true ↔ (jsTrim t).length ≠ 0 := by
  rw [validate_title_eval]
  simp

theorem validate_desc_iff (d : String) :
    validate (descriptionValidatable d) = true ↔
      ((jsTrim d).length ≠ 0 ∧ 2 ≤ d.length ∧ d.length ≤ 280) := by
  rw [validate_desc_eval]
  simp only [Bool.and_eq_true, decide_eq_true_eq, bne_iff_ne, ne_eq]
  exact ⟨fun ⟨⟨h1, h2⟩, h3⟩ => ⟨h1, by omega, by omega⟩,
    fun ⟨h1, h2, h3⟩ => ⟨⟨h1, by omega⟩, by omega⟩⟩

theorem validate_people_iff (p : Option Int) :
    validate (peopleValidatable p) = true ↔
      ∃ q, p = some q ∧ 1 ≤ q ∧ q ≤ 5 := by
  rw [validate_people_eval]
  cases p with
  | none => simp [jsGe, jsLe]
  | some q =>
      simp only [jsGe, jsLe, Bool.and_eq_true, decide_eq_true_eq, bne_iff_ne,
        ne_eq]
      constructor
      · rintro ⟨⟨-, h1⟩, h2⟩
        exact ⟨q, rfl, h1, h2⟩
      · rintro ⟨q', hq, h1, h2⟩
        injection hq with hqq
        subst hqq
        refine ⟨⟨?_, h1⟩, h2⟩
        show ¬ (jsTrim (jsToString (JSVal.num (some q)))).length = 0
        interval_cases q <;> decide

/-- C8: the form's validation accepts the input triple iff the title is
non-empty after trimming, the description is non-empty after trimming with
raw length in `[2, 280]`, and the people value is an actual number (not
`NaN`) in `[1, 5]`; in particular the listed boundary cases behave as
claimed (description lengths 1/281 rejected, 2/280 accepted; people 0/6
rejected, 1/5 accepted). -/
theorem checkUserInput_iff :
    (∀ (t d : String) (p : Option Int),
      checkUserInput t d p = true ↔
        ((jsTrim t).length ≠ 0 ∧
         ((jsTrim d).length ≠ 0 ∧ 2 ≤ d.length ∧ d.length ≤ 280) ∧
         ∃ q, p = some q ∧ 1 ≤ q ∧ q ≤ 5)) ∧
    checkUserInput "Title" "a" (some 3) = false ∧
    checkUserInput "Title" "ab" (some 3) = true ∧
    checkUserInput "Title" (String.mk (List.replicate 281 'a')) (some 3) = false ∧
    checkUserInput "Title" (String.mk (List.replicate 280 'a')) (some 3) = true ∧
    checkUserInput "Title" "A description." (some 0) = false ∧
    checkUserInput "Title" "A description." (some 6) = false ∧
    checkUserInput "Title" "A description." (some 1) = true ∧
    checkUserInput "Title" "A description." (some 5) = true := by
  refine ⟨?_, by decide, by decide, ?_, ?_, by decide, by decide, by decide,
    by decide⟩
  · intro t d p
    unfold checkUserInput
    simp only [Bool.and_eq_true, validate_title_iff, validate_desc_iff,
      validate_people_iff, and_assoc]
  · set_option maxRecDepth 4000 in decide
  · set_option maxRecDepth 4000 in decide

/-- C10 (implicit): `validate` applies only the constraints matching the
value's runtime type — for numbers the result is independent of
`minLength`/`maxLength`, for strings it is independent of `min`/`max`; and
with `required` absent or `false` and no type-applicable bound set,
`validate` accepts every value. -/
theorem validate_type_directed :
    (∀ (v : Option Int) (r : Option Bool) (ml₁ ml₂ mxl₁ mxl₂ mn mx : Option Int),
      validate { value := JSVal.num v, required := r, minLength := ml₁,
                 maxLength := mxl₁, min := mn, max := mx } =
      validate { value := JSVal.num v, required := r, minLength := ml₂,
                 maxLength := mxl₂, min := mn, max := mx }) ∧
    (∀ (s : String) (r : Option Bool) (ml mxl mn₁ mn₂ mx₁ mx₂ : Option Int),
      validate { value := JSVal.str s, required := r, minLength := ml,
                 maxLength := mxl, min := mn₁, max := mx₁ } =
      validate { value := JSVal.str s, required := r, minLength := ml,
                 maxLength := mxl, min := mn₂, max := mx₂ }) ∧
    (∀ (v : Option Int) (ml mxl : Option Int),
      validate { value := JSVal.num v, required := none, minLength := ml,
                 maxLength := mxl, min := none, max := none } = true) ∧
    (∀ (v : Option Int) (ml mxl : Option Int),
      validate { value := JSVal.num v, required := some false, minLength := ml,
                 maxLength := mxl, min := none, max := none } = true) ∧
    (∀ (s : String) (mn mx : Option Int),
      validate { value := JSVal.str s, required := none, minLength := none,
                 maxLength := none, min := mn, max := mx } = true) ∧
    (∀ (s : String) (mn mx : Option Int),
      validate { value := JSVal.str s, required := some false,
                 minLength := none, maxLength := none, min := mn,
                 max := mx } = true) := by
  refine ⟨?_, ?_, ?_, ?_, ?_, ?_⟩
  · intro v r ml₁ ml₂ mxl₁ mxl₂ mn mx
    cases ml₁ <;> cases ml₂ <;> cases mxl₁ <;> cases mxl₂ <;> rfl
  · intro s r ml mxl mn₁ mn₂ mx₁ mx₂
    cases mn₁ <;> cases mn₂ <;> cases mx₁ <;> cases mx₂ <;> rfl
  · intro v ml mxl
    cases ml <;> cases mxl <;> rfl
  · intro v ml mxl
    cases ml <;> cases mxl <;> rfl
  · intro s mn mx
    cases mn <;> cases mx <;> rfl
  · intro s mn mx
    cases mn <;> cases mx <;> rfl

/-- C9: form-submit atomicity.  If any validation check fails, `handleSubmit`
leaves the store untouched, clears no field and notifies no one; if all
pass, it calls `addProject` exactly once with the title, the description and
the coerced people number, and clears all three fields. -/
theorem handleSubmit_atomic (toNum : String → Option Int) (genId : String)
    (f : FormState) (s : ProjectState) :
    (checkUserInput f.titleInput f.descriptionInput (toNum f.peopleInput) = false →
      handleSubmit toNum genId f s = (f, s, [])) ∧
    (checkUserInput f.titleInput f.descriptionInput (toNum f.peopleInput) = true →
      ∃ q, toNum f.peopleInput = some q ∧
        handleSubmit toNum genId f s =
          ({ titleInput := "", descriptionInput := "", peopleInput := "" },
           (addProject f.titleInput f.descriptionInput q genId s).1,
           (addProject f.titleInput f.descriptionInput q genId s).2)) := by
  constructor
  · intro h
    simp [handleSubmit, getUserInput, h]
  · intro h
    have hpeople : validate (peopleValidatable (toNum f.peopleInput)) = true := by
      have hsplit := h
      unfold checkUserInput at hsplit
      simp only [Bool.and_eq_true] at hsplit
      exact hsplit.2
    obtain ⟨q, hq, -, -⟩ := (validate_people_iff _).mp hpeople
    refine ⟨q, hq, ?_⟩
    rw [hq] at h
    simp [handleSubmit, getUserInput, hq, h, clearInputs]

/-- Witness for C9: the valid-branch at a concrete submission
`("T", "ab", "3")`, with the coercion sending `"3"` to `3`. -/
theorem handleSubmit_atomic_witness :
    ∃ q, (fun inp => if inp = "3" then some (3 : Int) else none) "3" = some q ∧
      handleSubmit (fun inp => if inp = "3" then some (3 : Int) else none) "0.7"
          { titleInput := "T", descriptionInput := "ab", peopleInput := "3" }
          (addListener emptyState) =
        ({ titleInput := "", descriptionInput := "", peopleInput := "" },
         (addProject "T" "ab" q "0.7" (addListener emptyState)).1,
         (addProject "T" "ab" q "0.7" (addListener emptyState)).2) :=
  (handleSubmit_atomic (fun inp => if inp = "3" then some (3 : Int) else none)
      "0.7" { titleInput := "T", descriptionInput := "ab", peopleInput := "3" }
      (addListener emptyState)).2 (by decide)

/-- Witness for C1 at a concrete store (one listener, one existing
project). -/
theorem addProject_adds_one_active_witness :
    storeProjects (addProject "Build CLI" "A tool." 3 "0.42"
        (addProject "Old" "Older project." 2 "0.1" (addListener emptyState)).1).1 =
      storeProjects (addProject "Old" "Older project." 2 "0.1" (addListener emptyState)).1 ++
        [{ id := "0.42", title := "Build CLI", description := "A tool.",
           people := 3, status := ProjectStatus.Active }] :=
  (addProject_adds_one_active _ (by decide) "Build CLI" "A tool." 3 "0.42").1

example :
    (addProject "t" "d" 1 "0.5" (addListener emptyState)).2 =
      [(0, [0])] := by decide

example :
    storeProjects (addProject "t" "d" (1 : Int) "0.5" emptyState).1 =
      [{ id := "0.5", title := "t", description := "d", people := 1,
         status := ProjectStatus.Active }] := by decide
